import Mathlib

/-!
Shallow embedding of the point-cloud registration core of the repository
(the "beacon scanner" notebook): the orientation table `_rotations`, the
`Scanner` data type with its derived `distances` map and `orientations`,
the pairwise matcher `Scanner.__and__`, the alignment driver
`BeaconMap.positioned_scanners`, and the summary step
(`positioned_beacons` and `max_distance`).

Modelling conventions:
* integer 3-vectors are `Int × Int × Int`;
* the source keys its distance map on the floating `pdist` euclidean
  distances of integer vectors; two such distances are equal exactly when
  the squared integer distances are equal (the coordinates are 16-bit, so
  the correctly rounded square roots of the distinct integer squared
  distances are distinct doubles), so the embedding keys the map on the
  exact squared distance;
* Python `dict`s are association lists in insertion order; Python `set`s
  of indices are duplicate-free lists in insertion order, and the
  iteration choices `next(iter(...))` are determinised to the head of
  those lists;
* the unbounded `while` loop of the driver is an explicitly fuelled
  recursion, `none` meaning that the loop has not terminated within the
  given fuel;
* `max()` of an empty numpy array raises `ValueError` in the source; the
  embedded `maxDistance` returns `none` there.
-/

abbrev Point := Int × Int × Int

def origin : Point := (0, 0, 0)

def addP (p q : Point) : Point := (p.1 + q.1, p.2.1 + q.2.1, p.2.2 + q.2.2)

def subP (p q : Point) : Point := (p.1 - q.1, p.2.1 - q.2.1, p.2.2 - q.2.2)

/-- Squared euclidean distance between two integer points; the injective
image of the float distance key used by the source (see module docstring). -/
def sqdist (p q : Point) : Int :=
  (p.1 - q.1) ^ 2 + (p.2.1 - q.2.1) ^ 2 + (p.2.2 - q.2.2) ^ 2

/-- `MIN_BEACONS_IN_COMMON: Final[int] = 12` -/
def MIN_BEACONS_IN_COMMON : Nat := 12

/-- `MIN_COMMON_DISTANCES: Final[int] = math.comb(MIN_BEACONS_IN_COMMON, 2)` -/
def MIN_COMMON_DISTANCES : Nat := Nat.choose MIN_BEACONS_IN_COMMON 2

/-- The six permutations of `(0, 1, 2)` in the order produced by
`itertools.permutations(range(3))`. -/
def perms3 : List (List Nat) := [[0,1,2],[0,2,1],[1,0,2],[1,2,0],[2,0,1],[2,1,0]]

/-- The eight sign assignments in the order produced by
`np.array([-1, 1])[np.stack(np.meshgrid(*([np.arange(2)] * 3)), axis=-1).reshape(-1, 3)]`. -/
def signs8 : List (List Int) :=
  [[-1,-1,-1],[-1,-1,1],[1,-1,-1],[1,-1,1],[-1,1,-1],[-1,1,1],[1,1,-1],[1,1,1]]

/-- Permutation parity via `np.prod(np.sign(rows[:, tx] - rows[:, ty]))` over the
lower-triangle index pairs `(1,0), (2,0), (2,1)` of `np.tril_indices(3, -1)`. -/
def permParity (p : List Nat) : Int :=
  Int.sign ((p.getD 1 0 : Int) - (p.getD 0 0 : Int)) *
  Int.sign ((p.getD 2 0 : Int) - (p.getD 0 0 : Int)) *
  Int.sign ((p.getD 2 0 : Int) - (p.getD 1 0 : Int))

/-- `signsparity = np.prod(signs[:, :3], axis=1)` -/
def signProd (s : List Int) : Int := s.getD 0 1 * s.getD 1 1 * s.getD 2 1

/-- The matrix built from a sign assignment and a row permutation: the rows of
the (sign-scaled) identity rearranged by `rows`, so row `r` is
`signs[perm[r]] * e_(perm[r])`; the homogeneous fourth row and column of the
source are the identity on the translation-free part and are dropped. -/
def rotMatrix (s : List Int) (p : List Nat) : List (List Int) :=
  (List.range 3).map fun r =>
    (List.range 3).map fun c => if c = p.getD r 0 then s.getD (p.getD r 0) 1 else 0

/-- `_rotations()`: all 48 sign/permutation combinations (signs repeated
against tiled permutations, so in sign-major order), filtered to those whose
permutation parity equals the product of the signs. -/
def ROTATIONS : List (List (List Int)) :=
  ((((signs8.map fun s => perms3.map fun p => (s, p))).flatten).filter
      fun sp => permParity sp.2 == signProd sp.1).map
    fun sp => rotMatrix sp.1 sp.2

/-- Row vector times matrix, the effect of `aug @ ROTATIONS` on one point:
output coordinate `c` is `Σ_r x_r · M[r][c]`. -/
def applyRot (M : List (List Int)) (p : Point) : Point :=
  match M with
  | [[a, b, c], [d, e, f], [g, h, i]] =>
      (p.1 * a + p.2.1 * d + p.2.2 * g,
       p.1 * b + p.2.1 * e + p.2.2 * h,
       p.1 * c + p.2.1 * f + p.2.2 * i)
  | _ => p

/-- `@dataclass class Scanner`: a beacon list and a position defaulting to
`np.zeros(3)`. -/
structure Scanner where
  beacons : List Point
  position : Point := origin
deriving DecidableEq

/-- `Scanner.from_lines` builds a scanner from parsed coordinates with the
default position `(0, 0, 0)`. -/
def Scanner.ofBeacons (bs : List Point) : Scanner := ⟨bs, origin⟩

def pointAt (bs : List Point) (i : Nat) : Point := bs.getD i origin

/-- Index pairs `(i, j)` with `i < j < n` in the order of
`itertools.combinations(range(n), 2)`. -/
def allPairs (n : Nat) : List (Nat × Nat) :=
  ((List.range n).map fun i =>
      ((List.range n).filter fun j => decide (i < j)).map fun j => (i, j)).flatten

/-- Add an index to an index set (`set.update`): no-op when present. -/
def addIdx (l : List Nat) (i : Nat) : List Nat := if l.contains i then l else l ++ [i]

/-- One step of building the distance map: `map[dist].update(pair)` when the
key exists, else `map[dist] = set(pair)`. -/
def insertPair (m : List (Int × List Nat)) (e : Int × Nat × Nat) : List (Int × List Nat) :=
  if m.any fun en => en.1 == e.1 then
    m.map fun en => if en.1 == e.1 then (en.1, addIdx (addIdx en.2 e.2.1) e.2.2) else en
  else m ++ [(e.1, [e.2.1, e.2.2])]

/-- `zip(pdist(self.beacons), combinations(range(n), 2))`: the squared
distance of every index pair, in combinations order. -/
def distPairs (bs : List Point) : List (Int × Nat × Nat) :=
  (allPairs bs.length).map fun ij => (sqdist (pointAt bs ij.1) (pointAt bs ij.2), ij.1, ij.2)

def buildDistMap (ps : List (Int × Nat × Nat)) : List (Int × List Nat) :=
  ps.foldl insertPair []

/-- `Scanner.distances`: map from (squared) pair distance to the set of
beacon indices appearing in a pair at that distance. -/
def Scanner.distances (s : Scanner) : List (Int × List Nat) :=
  buildDistMap (distPairs s.beacons)

/-- `Scanner.orientations`: the 24 rotated variants of the beacon cloud. -/
def Scanner.orientations (s : Scanner) : List (List Point) :=
  ROTATIONS.map fun M => s.beacons.map fun p => applyRot M p

/-- Dictionary lookup `m[d]` (the source only looks up present keys). -/
def dlookup (m : List (Int × List Nat)) (d : Int) : List Nat :=
  match m.find? fun en => en.1 == d with
  | some en => en.2
  | none => []

/-- `self.distances.keys() & other.distances.keys()`, determinised to the
key-insertion order of `self`. -/
def sharedKeys (s o : Scanner) : List Int :=
  (s.distances.map Prod.fst).filter fun d => (o.distances.map Prod.fst).contains d

/-- `sum(len(self.distances[d]) // 2 for d in shared)`. -/
def prefilterSum (s o : Scanner) : Nat :=
  ((sharedKeys s o).map fun d => (dlookup s.distances d).length / 2).sum

/-- `repositioned = self.orientations + offsets[:, None, :]` for the anchor
index `i`: every orientation of the cloud translated so that its copy of
beacon `i` lands on the reference point. -/
def reposition (s : Scanner) (reference : Point) (i : Nat) : List (List Point) :=
  s.orientations.map fun ori => ori.map fun p => addP p (subP reference (ori.getD i origin))

/-- Number of occurrences of a vector in a list of vectors. -/
def countOcc (v : Point) : List Point → Nat
  | [] => 0
  | w :: ws => (if w = v then 1 else 0) + countOcc v ws

/-- `counts`: for every orientation, the number of coincidences between the
repositioned vectors and `other.beacons` (the sparse membership-matrix dot
product counts, for each repositioned vector, the beacon rows with the same
value). -/
def anchorCounts (s o : Scanner) (reference : Point) (i : Nat) : List Nat :=
  (reposition s reference i).map fun rep => (rep.map fun v => countOcc v o.beacons).sum

def listMaxN (l : List Nat) : Nat := l.foldr max 0

/-- `np.argmax`: index of the first occurrence of the maximum. -/
def argmaxN : List Nat → Nat
  | [] => 0
  | x :: xs => if x < listMaxN xs then argmaxN xs + 1 else 0

/-- The body of the anchor loop of `Scanner.__and__`: the `np.unique` size
shortcut, the per-orientation counts, the `counts >= MIN_BEACONS_IN_COMMON`
test and the construction of the repositioned scanner. -/
def tryAnchor (s o : Scanner) (reference : Point) (i : Nat) : Option Scanner :=
  let repos := reposition s reference i
  if ((o.beacons ++ repos.flatten).dedup.length : Int) >
      (s.beacons.length * ROTATIONS.length : Int) + (o.beacons.length : Int) -
        (MIN_BEACONS_IN_COMMON : Int) then none
  else
    let counts := anchorCounts s o reference i
    if counts.any fun c => decide (MIN_BEACONS_IN_COMMON ≤ c) then
      some ⟨(reposition s reference i).getD (argmaxN counts) [],
            subP reference ((s.orientations.getD (argmaxN counts) []).getD i origin)⟩
    else none

/-- `for i in own_pairs: ...` with an implicit `return None` at the end. -/
def anchorLoop (s o : Scanner) (reference : Point) : List Nat → Option Scanner
  | [] => none
  | i :: rest =>
    match tryAnchor s o reference i with
    | some r => some r
    | none => anchorLoop s o reference rest

/-- `Scanner.__and__(self, other)`: the distance pre-filter, then the choice
of a shared distance, of the reference beacon of `other` and of the candidate
anchors of `self`, then the anchor loop. -/
def matchScanner (s o : Scanner) : Option Scanner :=
  if prefilterSum s o < MIN_COMMON_DISTANCES then none
  else
    match (sharedKeys s o).head? with
    | none => none
    | some d =>
      anchorLoop s o (pointAt o.beacons ((dlookup o.distances d).headD 0))
        (dlookup s.distances d)

/-- `for other in positioned: if placed := scanner & other: ...`: first
successful match against the placed list, in placed order. -/
def tryPlace (sc : Scanner) : List Scanner → Option Scanner
  | [] => none
  | o :: rest =>
    match matchScanner sc o with
    | some r => some r
    | none => tryPlace sc rest

/-- The `while to_position:` loop of `BeaconMap.positioned_scanners`, with
explicit fuel: pop the head of the queue, append the match result to the
placed list on success, requeue the scanner at the tail on failure. -/
def alignRun : Nat → List Scanner → List Scanner → Option (List Scanner)
  | _, [], placed => some placed
  | 0, _ :: _, _ => none
  | fuel + 1, sc :: q, placed =>
    match tryPlace sc placed with
    | some pl => alignRun fuel q (placed ++ [pl])
    | none => alignRun fuel (q ++ [sc]) placed

/-- `BeaconMap.positioned_scanners`: seed the placed list with the first
scanner popped from the queue, then run the loop. -/
def positionedScanners (fuel : Nat) (scanners : List Scanner) : Option (List Scanner) :=
  match scanners with
  | [] => none
  | s :: rest => alignRun fuel rest [s]

/-- `BeaconMap.positioned_beacons`: the set of all placed beacon vectors. -/
def positionedBeacons (ss : List Scanner) : List Point :=
  (ss.map Scanner.beacons).flatten.dedup

/-- Manhattan (`cityblock`) distance. -/
def manhattan (p q : Point) : Int := |p.1 - q.1| + |p.2.1 - q.2.1| + |p.2.2 - q.2.2|

/-- Unordered pairs of list elements in `pdist` (combinations) order. -/
def listPairs {α : Type _} : List α → List (α × α)
  | [] => []
  | x :: xs => (xs.map fun y => (x, y)) ++ listPairs xs

/-- Maximum of a list of integers; `none` on the empty list, where numpy
`max()` raises `ValueError`. -/
def listMaxI : List Int → Option Int
  | [] => none
  | x :: xs =>
    match listMaxI xs with
    | none => some x
    | some m => some (max x m)

/-- `max_distance(scanners)`: maximum cityblock `pdist` over the scanner
positions. -/
def maxDistance (ss : List Scanner) : Option Int :=
  listMaxI ((listPairs (ss.map Scanner.position)).map fun pr => manhattan pr.1 pr.2)

/-- A point on an integer parabola; twelve of these have 66 pairwise
distinct squared distances. -/
def parab (k : Int) : Point := (k, k * k, 0)

def c12 : List Point := (List.range 12).map fun k => parab k

/-- A cloud of 12 points in generic position (all 66 pair distances
distinct). -/
def cloudA : Scanner := ⟨c12, origin⟩

/-- Twelve collinear, evenly spaced points: the pair distances repeat, so
the index sets of the distance map collapse. -/
def coll12 : Scanner := ⟨(List.range 12).map fun k => ((k : Int), 0, 0), origin⟩

def c11common : List Point := (List.range 11).map fun k => parab k

/-- Eleven generic shared points plus an extra point of its own. -/
def c11F : Scanner := ⟨c11common ++ [(20, 3, 50)], origin⟩

/-- Eleven generic shared points plus a different extra point. -/
def c11C : Scanner := ⟨c11common ++ [(-7, 40, 60)], origin⟩

/-- A two-beacon cloud whose single pair distance is 1. -/
def tinyA : Scanner := ⟨[(0, 0, 0), (1, 0, 0)], origin⟩

/-- A two-beacon cloud whose single pair distance is 4: no distance in
common with `tinyA`. -/
def tinyB : Scanner := ⟨[(0, 0, 0), (0, 2, 0)], origin⟩

/-- Two scanners with beacons and distinct positions, used to exercise the
summary step. -/
def sumA : Scanner := ⟨[(0, 0, 0), (1, 1, 1)], (0, 0, 0)⟩

/-- Second summary-step scanner; its position is at cityblock distance 13
from `sumA`'s. -/
def sumB : Scanner := ⟨[(1, 1, 1), (2, 2, 2)], (10, -3, 0)⟩

/-- Boolean check that a vector has exactly one nonzero entry. -/
def oneNonzero (l : List Int) : Bool := (l.filter fun x => !(x == 0)).length == 1

/-- Boolean check that a matrix is 3×3, with entries in `{-1, 0, 1}` and
exactly one nonzero entry in every row and every column. -/
def isSignedPermMat (M : List (List Int)) : Bool :=
  (M.length == 3) &&
  (M.all fun row => (row.length == 3) && row.all fun x => (x == -1) || (x == 0) || (x == 1)) &&
  (M.all fun row => oneNonzero row) &&
  (((List.range 3).map fun c => M.map fun row => row.getD c 0).all fun col => oneNonzero col)

/-- Determinant of a 3×3 matrix given as row lists. -/
def det3 (M : List (List Int)) : Int :=
  match M with
  | [[a, b, c], [d, e, f], [g, h, i]] =>
      a * (e * i - f * h) - b * (d * i - f * g) + c * (d * h - e * g)
  | _ => 0

/-! ## Helper lemmas -/

set_option maxRecDepth 100000

theorem listMaxN_cons (a : Nat) (as : List Nat) : listMaxN (a :: as) = max a (listMaxN as) := rfl

theorem le_listMaxN {l : List Nat} {x : Nat} (hx : x ∈ l) : x ≤ listMaxN l := by
  induction l with
  | nil => cases hx
  | cons a as ih =>
    rw [listMaxN_cons]
    rcases List.mem_cons.mp hx with rfl | h
    · exact le_max_left _ _
    · exact le_trans (ih h) (le_max_right _ _)

theorem listMaxN_mem : ∀ {l : List Nat}, l ≠ [] → listMaxN l ∈ l
  | [a], _ => by simp [listMaxN]
  | a :: b :: as, _ => by
    rw [listMaxN_cons]
    rcases max_choice a (listMaxN (b :: as)) with h1 | h1 <;> rw [h1]
    · exact List.mem_cons_self _ _
    · exact List.mem_cons_of_mem _ (listMaxN_mem (by simp))

theorem getD_argmaxN : ∀ (l : List Nat), l.getD (argmaxN l) 0 = listMaxN l
  | [] => rfl
  | x :: xs => by
    rw [listMaxN_cons]
    simp only [argmaxN]
    by_cases h : x < listMaxN xs
    · rw [if_pos h]
      have h1 : (x :: xs).getD (argmaxN xs + 1) 0 = xs.getD (argmaxN xs) 0 := rfl
      rw [h1, getD_argmaxN xs]
      exact (max_eq_right (le_of_lt h)).symm
    · rw [if_neg h]
      have h1 : (x :: xs).getD 0 0 = x := rfl
      rw [h1]
      exact (max_eq_left (le_of_not_lt h)).symm

theorem argmaxN_lt : ∀ {l : List Nat}, l ≠ [] → argmaxN l < l.length
  | x :: xs, _ => by
    simp only [argmaxN]
    by_cases h : x < listMaxN xs
    · rw [if_pos h]
      have hxs : xs ≠ [] := by
        intro he
        subst he
        simp [listMaxN] at h
      have := argmaxN_lt hxs
      simp only [List.length_cons]
      omega
    · rw [if_neg h]
      simp

theorem tryPlace_none {sc : Scanner} : ∀ {p : List Scanner},
    (∀ o ∈ p, matchScanner sc o = none) → tryPlace sc p = none
  | [], _ => rfl
  | o :: rest, h => by
    simp only [tryPlace]
    rw [h o (List.mem_cons_self _ _)]
    exact tryPlace_none fun o' ho' => h o' (List.mem_cons_of_mem _ ho')

theorem alignRun_length : ∀ (f : Nat) (q p res : List Scanner),
    alignRun f q p = some res → res.length = q.length + p.length
  | f, [], p, res, h => by
    have hpr : p = res := by cases f <;> simpa [alignRun] using h
    subst hpr
    simp
  | 0, sc :: q', p, res, h => by simp [alignRun] at h
  | f + 1, sc :: q', p, res, h => by
    simp only [alignRun] at h
    cases htp : tryPlace sc p with
    | some pl =>
      rw [htp] at h
      have := alignRun_length f q' (p ++ [pl]) res h
      simp at this ⊢
      omega
    | none =>
      rw [htp] at h
      have := alignRun_length f (q' ++ [sc]) p res h
      simp at this ⊢
      omega

theorem alignRun_head : ∀ (f : Nat) (q p res : List Scanner), p ≠ [] →
    alignRun f q p = some res → res.head? = p.head?
  | f, [], p, res, _, h => by
    have hpr : p = res := by cases f <;> simpa [alignRun] using h
    subst hpr
    rfl
  | 0, sc :: q', p, res, _, h => by simp [alignRun] at h
  | f + 1, sc :: q', p, res, hp, h => by
    simp only [alignRun] at h
    cases htp : tryPlace sc p with
    | some pl =>
      rw [htp] at h
      have h2 := alignRun_head f q' (p ++ [pl]) res (by simp) h
      rw [h2]
      cases p with
      | nil => exact absurd rfl hp
      | cons a p' => rfl
    | none =>
      rw [htp] at h
      exact alignRun_head f (q' ++ [sc]) p res hp h

/-! ## Claim theorems -/

/-- C5: the orientation table contains exactly 24 entries, pairwise
distinct, each a 3×3 matrix with entries in `{-1, 0, 1}`, exactly one
nonzero entry per row and per column, and determinant `+1` (so no
reflection is included). -/
theorem c5_orientation_table :
    ROTATIONS.length = 24 ∧ ROTATIONS.Nodup ∧
    (ROTATIONS.all fun M => isSignedPermMat M && (det3 M == 1)) = true := by decide

/-- C10: `max_distance` on a list containing exactly one placed scanner
yields no value (the `pdist` array of pairs is empty, so taking its `max()`
raises in the source, modelled by `none`). -/
theorem c10_max_distance_singleton (s : Scanner) : maxDistance [s] = none := rfl

/-- C2: whenever the sum over the shared distance keys of the
floor-halved index-set sizes stays below the threshold 66, the pairwise
matcher returns the no-match result `none`, before any orientation
search. -/
theorem c2_prefilter_rejects (s o : Scanner)
    (h : prefilterSum s o < MIN_COMMON_DISTANCES) : matchScanner s o = none := by
  simp [matchScanner, h]

/-- Witness for C2: two tiny clouds with no shared distance key. -/
theorem c2_prefilter_rejects_witness :
    prefilterSum tinyB tinyA < MIN_COMMON_DISTANCES ∧ matchScanner tinyB tinyA = none :=
  ⟨by decide, c2_prefilter_rejects tinyB tinyA (by decide)⟩

/-- C3 counterexample: on a disconnected input (two clouds sharing no
distance key) the driver does not report an unsolvable-input condition: the
candidate is requeued forever, and the fuelled loop never produces a
result. -/
theorem c3_counterexample :
    matchScanner tinyB tinyA = none ∧ alignRun 25 [tinyB] [tinyA] = none ∧
    positionedScanners 25 [tinyA, tinyB] = none := by decide

/-- C3 amended: the driver has no non-progress detection: whenever no
queued cloud matches any placed cloud, every pass requeues the head
unchanged and the loop never terminates (the fuelled run returns `none`
for every fuel) instead of reporting an unsolvable input. -/
theorem c3_no_progress_loops (fuel : Nat) :
    ∀ (q p : List Scanner), q ≠ [] →
    (∀ sc ∈ q, ∀ o ∈ p, matchScanner sc o = none) → alignRun fuel q p = none := by
  induction fuel with
  | zero =>
    intro q p hq hall
    cases q with
    | nil => exact absurd rfl hq
    | cons sc q' => rfl
  | succ f ih =>
    intro q p hq hall
    cases q with
    | nil => exact absurd rfl hq
    | cons sc q' =>
      have hnone : tryPlace sc p = none := tryPlace_none (hall sc (List.mem_cons_self _ _))
      simp only [alignRun]
      rw [hnone]
      refine ih (q' ++ [sc]) p (by simp) fun sc' hsc' o ho => ?_
      rcases List.mem_append.mp hsc' with h1 | h1
      · exact hall sc' (List.mem_cons_of_mem _ h1) o ho
      · rcases List.mem_singleton.mp h1 with rfl
        exact hall sc' (List.mem_cons_self _ _) o ho

/-- Witness for the amended C3 on a concrete disconnected pair. -/
theorem c3_no_progress_loops_witness :
    (([tinyB] : List Scanner) ≠ [] ∧
      ∀ sc ∈ ([tinyB] : List Scanner), ∀ o ∈ ([tinyA] : List Scanner),
        matchScanner sc o = none) ∧
    alignRun 7 [tinyB] [tinyA] = none :=
  ⟨⟨by decide, by decide⟩, c3_no_progress_loops 7 [tinyB] [tinyA] (by decide) (by decide)⟩

/-- C4: the driver pops the head of the unplaced queue, tries each placed
cloud in order stopping at the first success, appends the match result to
the placed list on success, requeues the candidate at the tail on failure,
terminates exactly when the queue is empty, ends with one placed scanner
per input cloud, and is seeded with the first input cloud (whose parsed
position is the default `(0, 0, 0)`). -/
theorem c4_driver (fuel : Nat) (s0 : Scanner) (rest res : List Scanner)
    (h : positionedScanners fuel (s0 :: rest) = some res) :
    res.length = (s0 :: rest).length ∧
    res.head? = some s0 ∧
    (∀ bs, (Scanner.ofBeacons bs).position = origin) ∧
    (∀ f p, alignRun f [] p = some p) ∧
    (∀ f sc q p pl, tryPlace sc p = some pl →
      alignRun (f + 1) (sc :: q) p = alignRun f q (p ++ [pl])) ∧
    (∀ f sc q p, tryPlace sc p = none →
      alignRun (f + 1) (sc :: q) p = alignRun f (q ++ [sc]) p) ∧
    (∀ sc oth ps r, matchScanner sc oth = some r → tryPlace sc (oth :: ps) = some r) ∧
    (∀ sc oth ps, matchScanner sc oth = none → tryPlace sc (oth :: ps) = tryPlace sc ps) := by
  refine ⟨?_, ?_, fun _ => rfl, ?_, ?_, ?_, ?_, ?_⟩
  · have := alignRun_length fuel rest [s0] res (by simpa [positionedScanners] using h)
    simp at this ⊢
    omega
  · have := alignRun_head fuel rest [s0] res (by simp) (by simpa [positionedScanners] using h)
    simpa using this
  · intro f p
    cases f <;> rfl
  · intro f sc q p pl htp
    simp [alignRun, htp]
  · intro f sc q p htp
    simp [alignRun, htp]
  · intro sc oth ps r hm
    simp [tryPlace, hm]
  · intro sc oth ps hm
    simp [tryPlace, hm]

/-- Witness for C4 at a one-scanner input with fuel 1. -/
theorem c4_driver_witness :
    positionedScanners 1 [tinyA] = some [tinyA] ∧
    ([tinyA] : List Scanner).head? = some tinyA :=
  ⟨rfl, (c4_driver 1 tinyA [] [tinyA] rfl).2.1⟩

theorem rot_cases : ∀ M ∈ ROTATIONS,
    M = [[-1,0,0],[0,0,-1],[0,-1,0]] ∨ M = [[0,-1,0],[-1,0,0],[0,0,-1]] ∨
    M = [[0,0,-1],[0,-1,0],[-1,0,0]] ∨ M = [[-1,0,0],[0,-1,0],[0,0,1]] ∨
    M = [[0,-1,0],[0,0,1],[-1,0,0]] ∨ M = [[0,0,1],[-1,0,0],[0,-1,0]] ∨
    M = [[1,0,0],[0,-1,0],[0,0,-1]] ∨ M = [[0,-1,0],[0,0,-1],[1,0,0]] ∨
    M = [[0,0,-1],[1,0,0],[0,-1,0]] ∨ M = [[1,0,0],[0,0,1],[0,-1,0]] ∨
    M = [[0,-1,0],[1,0,0],[0,0,1]] ∨ M = [[0,0,1],[0,-1,0],[1,0,0]] ∨
    M = [[-1,0,0],[0,1,0],[0,0,-1]] ∨ M = [[0,1,0],[0,0,-1],[-1,0,0]] ∨
    M = [[0,0,-1],[-1,0,0],[0,1,0]] ∨ M = [[-1,0,0],[0,0,1],[0,1,0]] ∨
    M = [[0,1,0],[-1,0,0],[0,0,1]] ∨ M = [[0,0,1],[0,1,0],[-1,0,0]] ∨
    M = [[1,0,0],[0,0,-1],[0,1,0]] ∨ M = [[0,1,0],[1,0,0],[0,0,-1]] ∨
    M = [[0,0,-1],[0,1,0],[1,0,0]] ∨ M = [[1,0,0],[0,1,0],[0,0,1]] ∨
    M = [[0,1,0],[0,0,1],[1,0,0]] ∨ M = [[0,0,1],[1,0,0],[0,1,0]] := by decide

theorem sqdist_applyRot {M : List (List Int)} (hM : M ∈ ROTATIONS) (p q t : Point) :
    sqdist (addP (applyRot M p) t) (addP (applyRot M q) t) = sqdist p q := by
  obtain ⟨p1, p2, p3⟩ := p
  obtain ⟨q1, q2, q3⟩ := q
  obtain ⟨t1, t2, t3⟩ := t
  rcases rot_cases M hM with rfl | rfl | rfl | rfl | rfl | rfl | rfl | rfl | rfl | rfl | rfl |
    rfl | rfl | rfl | rfl | rfl | rfl | rfl | rfl | rfl | rfl | rfl | rfl | rfl <;>
    · simp only [applyRot, addP, sqdist]
      ring

theorem pointAt_map (f : Point → Point) (bs : List Point) {i : Nat} (hi : i < bs.length) :
    pointAt (bs.map f) i = f (pointAt bs i) := by
  simp [pointAt, List.getD_eq_getElem?_getD, List.getElem?_map, List.getElem?_eq_getElem hi]

theorem mem_allPairs {n i j : Nat} (h : (i, j) ∈ allPairs n) : i < j ∧ j < n := by
  simp only [allPairs, List.mem_flatten, List.mem_map] at h
  rcases h with ⟨l, ⟨i', hi', rfl⟩, hmem⟩
  rcases List.mem_map.mp hmem with ⟨j', hj', heq⟩
  simp only [List.mem_filter, List.mem_range, decide_eq_true_eq] at hj'
  cases heq
  exact ⟨hj'.2, hj'.1⟩

/-- C7: the derived distance mapping is invariant under applying any
orientation-table entry followed by any integer translation to the whole
cloud: the full distance-to-index-set map is unchanged, hence so are the
multiset of distance values and the pair count per value. -/
theorem c7_distance_invariance (s : Scanner) (M : List (List Int)) (t : Point)
    (hM : M ∈ ROTATIONS) :
    Scanner.distances ⟨s.beacons.map fun p => addP (applyRot M p) t, s.position⟩ =
      s.distances := by
  unfold Scanner.distances
  congr 1
  show distPairs (s.beacons.map fun p => addP (applyRot M p) t) = distPairs s.beacons
  unfold distPairs
  rw [List.length_map]
  apply List.map_congr_left
  intro ij hij
  obtain ⟨i, j⟩ := ij
  obtain ⟨hij', hjn⟩ := mem_allPairs hij
  have hin : i < s.beacons.length := lt_trans hij' hjn
  rw [pointAt_map _ _ hin, pointAt_map _ _ hjn, sqdist_applyRot hM]

/-- Witness for C7: the identity rotation and a nonzero translation applied
to a concrete cloud. -/
theorem c7_distance_invariance_witness :
    ([[1,0,0],[0,1,0],[0,0,1]] : List (List Int)) ∈ ROTATIONS ∧
    Scanner.distances
        ⟨tinyA.beacons.map fun p => addP (applyRot [[1,0,0],[0,1,0],[0,0,1]] p) (5, -3, 2),
         tinyA.position⟩ =
      tinyA.distances :=
  ⟨by decide, c7_distance_invariance tinyA [[1,0,0],[0,1,0],[0,0,1]] (5, -3, 2) (by decide)⟩

theorem listPairs_get {α : Type _} : ∀ (l : List α) (i j : Nat) (hi : i < l.length)
    (hj : j < l.length), i < j →
    (l.get ⟨i, hi⟩, l.get ⟨j, hj⟩) ∈ listPairs l
  | [], _, _, hi, _, _ => absurd hi (by simp)
  | x :: xs, 0, 0, _, _, h => absurd h (by omega)
  | x :: xs, _ + 1, 0, _, _, h => absurd h (by omega)
  | x :: xs, 0, j + 1, hi, hj, hij => by
    simp only [listPairs]
    apply List.mem_append_left
    apply List.mem_map.mpr
    exact ⟨xs.get ⟨j, by simpa using hj⟩, List.get_mem _ _ _, by simp⟩
  | x :: xs, i + 1, j + 1, hi, hj, hij => by
    simp only [listPairs]
    apply List.mem_append_right
    have := listPairs_get xs i j (by simpa using hi) (by simpa using hj) (by omega)
    simpa using this

theorem listPairs_mem {α : Type _} : ∀ (l : List α) (pr : α × α), pr ∈ listPairs l →
    ∃ (i j : Nat) (hi : i < l.length) (hj : j < l.length), i < j ∧
      l.get ⟨i, hi⟩ = pr.1 ∧ l.get ⟨j, hj⟩ = pr.2
  | [], pr, h => absurd h (by simp [listPairs])
  | x :: xs, pr, h => by
    simp only [listPairs, List.mem_append] at h
    rcases h with h | h
    · rcases List.mem_map.mp h with ⟨y, hy, rfl⟩
      rcases List.mem_iff_get.mp hy with ⟨⟨j, hj⟩, rfl⟩
      exact ⟨0, j + 1, by simp, by simpa using Nat.succ_lt_succ hj, by omega, rfl, by simp⟩
    · rcases listPairs_mem xs pr h with ⟨i, j, hi, hj, hij, h1, h2⟩
      exact ⟨i + 1, j + 1, by simpa using Nat.succ_lt_succ hi,
        by simpa using Nat.succ_lt_succ hj, by omega, by simpa using h1, by simpa using h2⟩

theorem listMaxI_spec : ∀ (l : List Int), l ≠ [] →
    ∃ m, listMaxI l = some m ∧ m ∈ l ∧ ∀ x ∈ l, x ≤ m
  | [x], _ => ⟨x, rfl, by simp, by simp⟩
  | x :: y :: ys, _ => by
    rcases listMaxI_spec (y :: ys) (by simp) with ⟨m, hm, hmem, hle⟩
    refine ⟨max x m, ?_, ?_, ?_⟩
    · have hstep : listMaxI (x :: y :: ys) =
          match listMaxI (y :: ys) with
          | none => some x
          | some m => some (max x m) := rfl
      rw [hstep, hm]
    · rcases max_choice x m with h | h <;> rw [h]
      · exact List.mem_cons_self _ _
      · exact List.mem_cons_of_mem _ hmem
    · intro z hz
      rcases List.mem_cons.mp hz with rfl | hz'
      · exact le_max_left _ _
      · exact le_trans (hle z hz') (le_max_right _ _)

theorem flatten_toFinset (ss : List Scanner) :
    ((ss.map Scanner.beacons).flatten).toFinset =
      (ss.map fun s : Scanner => s.beacons.toFinset).foldr (· ∪ ·) ∅ := by
  induction ss with
  | nil => simp
  | cons s rest ih =>
    simp only [List.map_cons, List.flatten_cons, List.foldr_cons, List.toFinset_append, ih]

/-- C8: the distinct point count is the cardinality of the union (under
exact integer equality) of the placed clouds' point sets, and the maximum
spread is the maximum Manhattan distance over all unordered pairs of
placed-scanner positions. -/
theorem c8_summary (ss : List Scanner) (h2 : 2 ≤ ss.length) :
    (positionedBeacons ss).length =
      ((ss.map fun s : Scanner => s.beacons.toFinset).foldr (· ∪ ·) ∅).card ∧
    ∃ m, maxDistance ss = some m ∧
      (∀ (i j : Nat) (hi : i < ss.length) (hj : j < ss.length), i < j →
        manhattan (ss.get ⟨i, hi⟩).position (ss.get ⟨j, hj⟩).position ≤ m) ∧
      (∃ (i j : Nat) (hi : i < ss.length) (hj : j < ss.length), i < j ∧
        manhattan (ss.get ⟨i, hi⟩).position (ss.get ⟨j, hj⟩).position = m) := by
  constructor
  · rw [positionedBeacons, ← List.card_toFinset, flatten_toFinset]
  · have hne : listPairs (ss.map Scanner.position) ≠ [] := by
      cases ss with
      | nil => simp at h2
      | cons a rest =>
        cases rest with
        | nil => simp at h2
        | cons b rest' => simp [listPairs]
    have hmapne :
        ((listPairs (ss.map Scanner.position)).map fun pr => manhattan pr.1 pr.2) ≠ [] := by
      simpa using hne
    rcases listMaxI_spec _ hmapne with ⟨m, hm, hmem, hle⟩
    refine ⟨m, hm, ?_, ?_⟩
    · intro i j hi hj hij
      have hip : i < (ss.map Scanner.position).length := by simpa using hi
      have hjp : j < (ss.map Scanner.position).length := by simpa using hj
      have hpair := listPairs_get (ss.map Scanner.position) i j hip hjp hij
      have hm2 : manhattan ((ss.map Scanner.position).get ⟨i, hip⟩)
          ((ss.map Scanner.position).get ⟨j, hjp⟩) ≤ m :=
        hle _ (List.mem_map.mpr ⟨_, hpair, rfl⟩)
      simpa using hm2
    · rcases List.mem_map.mp hmem with ⟨pr, hpr, rfl⟩
      rcases listPairs_mem _ pr hpr with ⟨i, j, hip, hjp, hij, h1, h2'⟩
      refine ⟨i, j, by simpa using hip, by simpa using hjp, hij, ?_⟩
      rw [← h1, ← h2']
      simp

/-- Witness for C8 on two concrete placed scanners. -/
theorem c8_summary_witness :
    2 ≤ ([sumA, sumB] : List Scanner).length ∧
    ((positionedBeacons [sumA, sumB]).length =
        (([sumA, sumB].map fun s : Scanner => s.beacons.toFinset).foldr (· ∪ ·) ∅).card ∧
      ∃ m, maxDistance [sumA, sumB] = some m ∧
        (∀ (i j : Nat) (hi : i < ([sumA, sumB] : List Scanner).length)
          (hj : j < ([sumA, sumB] : List Scanner).length), i < j →
          manhattan (([sumA, sumB] : List Scanner).get ⟨i, hi⟩).position
            (([sumA, sumB] : List Scanner).get ⟨j, hj⟩).position ≤ m) ∧
        (∃ (i j : Nat) (hi : i < ([sumA, sumB] : List Scanner).length)
          (hj : j < ([sumA, sumB] : List Scanner).length), i < j ∧
          manhattan (([sumA, sumB] : List Scanner).get ⟨i, hi⟩).position
            (([sumA, sumB] : List Scanner).get ⟨j, hj⟩).position = m)) :=
  ⟨by decide, c8_summary [sumA, sumB] (by decide)⟩

theorem countOcc_eq_zero : ∀ {B : List Point} {v : Point}, v ∉ B → countOcc v B = 0
  | [], _, _ => rfl
  | b :: bs, v, h => by
    have hb : b ≠ v := fun he => h (he ▸ List.mem_cons_self _ _)
    have hbs : v ∉ bs := fun hm => h (List.mem_cons_of_mem _ hm)
    simp [countOcc, hb, countOcc_eq_zero hbs]

theorem countOcc_eq {B : List Point} (hB : B.Nodup) (v : Point) :
    countOcc v B = if v ∈ B then 1 else 0 := by
  induction B with
  | nil => simp [countOcc]
  | cons b bs ih =>
    rw [List.nodup_cons] at hB
    simp only [countOcc]
    by_cases hvb : b = v
    · subst hvb
      simp [countOcc_eq_zero hB.1]
    · have hvb' : v ≠ b := fun he => hvb he.symm
      rw [ih hB.2]
      simp [hvb, List.mem_cons, hvb']

theorem count_sum_eq_filter_length {B : List Point} (hB : B.Nodup) :
    ∀ rep : List Point,
      (rep.map fun v => countOcc v B).sum = (rep.filter fun v => decide (v ∈ B)).length
  | [] => rfl
  | v :: rest => by
    simp only [List.map_cons, List.sum_cons, List.filter_cons]
    rw [countOcc_eq hB, count_sum_eq_filter_length hB rest]
    by_cases hv : v ∈ B <;> simp [hv, Nat.add_comm]

theorem filter_partition_length {α : Type _} (p : α → Bool) : ∀ (F : List α),
    (F.filter p).length + (F.filter fun v => !(p v)).length = F.length
  | [] => rfl
  | x :: xs => by
    have ih := filter_partition_length p xs
    simp only [List.filter_cons]
    cases hx : p x <;> simp [hx] <;> omega

theorem dedup_append_bound {B F : List Point} (hB : B.Nodup) :
    (B ++ F).dedup.length + (F.filter fun v => decide (v ∈ B)).length ≤
      B.length + F.length := by
  have h1 : (B ++ F).dedup.length = ((B ++ F).toFinset).card := (List.card_toFinset _).symm
  rw [List.toFinset_append] at h1
  have h2 : (B.toFinset ∪ F.toFinset).card =
      B.toFinset.card + (F.toFinset \ B.toFinset).card := by
    rw [← Finset.card_union_of_disjoint Finset.disjoint_sdiff, Finset.union_sdiff_self_eq_union]
  have h3 : B.toFinset.card = B.length := List.toFinset_card_of_nodup hB
  have h4 : F.toFinset \ B.toFinset = (F.filter fun v => !(decide (v ∈ B))).toFinset := by
    ext a
    simp [List.mem_filter, Finset.mem_sdiff, List.mem_toFinset]
  have h5 : (F.filter fun v => !(decide (v ∈ B))).toFinset.card ≤
      (F.filter fun v => !(decide (v ∈ B))).length := List.toFinset_card_le _
  have h6 := filter_partition_length (fun v => decide (v ∈ B)) F
  simp only [] at h6
  rw [h4] at h2
  omega

theorem sum_map_const_nat {α : Type _} (c : Nat) : ∀ (l : List α),
    (l.map fun _ => c).sum = l.length * c
  | [] => by simp
  | x :: xs => by
    simp [sum_map_const_nat c xs, Nat.succ_mul]
    omega

theorem reposition_flatten_length (s : Scanner) (ref : Point) (i : Nat) :
    (reposition s ref i).flatten.length = s.beacons.length * ROTATIONS.length := by
  rw [List.length_flatten]
  have h1 : ((reposition s ref i).map List.length) =
      (reposition s ref i).map fun _ => s.beacons.length := by
    apply List.map_congr_left
    intro rep hrep
    simp only [reposition, Scanner.orientations, List.map_map, List.mem_map] at hrep
    rcases hrep with ⟨M, hM, rfl⟩
    simp [Function.comp]
  rw [h1, sum_map_const_nat]
  simp [reposition, Scanner.orientations, Nat.mul_comm]

theorem anchorCounts_length (s o : Scanner) (ref : Point) (i : Nat) :
    (anchorCounts s o ref i).length = ROTATIONS.length := by
  simp [anchorCounts, reposition, Scanner.orientations]

theorem getD_map_of_lt {α β : Type _} (f : α → β) (l : List α) (d : β) {k : Nat}
    (hk : k < l.length) : (l.map f).getD k d = f (l.get ⟨k, hk⟩) := by
  rw [List.getD_eq_getElem?_getD, List.getElem?_map, List.getElem?_eq_getElem hk]
  simp

theorem tryAnchor_isSome_iff (s o : Scanner) (hnd : o.beacons.Nodup) (ref : Point) (i : Nat) :
    (tryAnchor s o ref i).isSome = true ↔
      MIN_BEACONS_IN_COMMON ≤ listMaxN (anchorCounts s o ref i) := by
  constructor
  · intro h
    simp only [tryAnchor] at h
    split_ifs at h with h1 h2
    · simp at h
    · rcases List.any_eq_true.mp h2 with ⟨c, hc, hdec⟩
      exact le_trans (of_decide_eq_true hdec) (le_listMaxN hc)
    · simp at h
  · intro h12
    have hne : anchorCounts s o ref i ≠ [] := by
      intro hnil
      rw [hnil] at h12
      simp [listMaxN, MIN_BEACONS_IN_COMMON] at h12
    have hmem : listMaxN (anchorCounts s o ref i) ∈ anchorCounts s o ref i := listMaxN_mem hne
    have hmem' := hmem
    simp only [anchorCounts] at hmem'
    rcases List.mem_map.mp hmem' with ⟨rep, hrep, hsum⟩
    have hfilter : (rep.filter fun v => decide (v ∈ o.beacons)).length =
        listMaxN (anchorCounts s o ref i) :=
      (count_sum_eq_filter_length hnd rep).symm.trans hsum
    have hbound := dedup_append_bound (B := o.beacons) (F := (reposition s ref i).flatten) hnd
    have hsub : (rep.filter fun v => decide (v ∈ o.beacons)).length ≤
        ((reposition s ref i).flatten.filter fun v => decide (v ∈ o.beacons)).length :=
      ((List.sublist_flatten_of_mem hrep).filter _).length_le
    have hflen := reposition_flatten_length s ref i
    have hMB : MIN_BEACONS_IN_COMMON = 12 := rfl
    have hskip : ¬ (((o.beacons ++ (reposition s ref i).flatten).dedup.length : Int) >
        (s.beacons.length * ROTATIONS.length : Int) + (o.beacons.length : Int) -
          (MIN_BEACONS_IN_COMMON : Int)) := by
      rw [hMB] at h12 ⊢
      push_cast
      omega
    simp only [tryAnchor]
    rw [if_neg hskip]
    have hany : (anchorCounts s o ref i).any
        (fun c => decide (MIN_BEACONS_IN_COMMON ≤ c)) = true :=
      List.any_eq_true.mpr ⟨_, hmem, decide_eq_true h12⟩
    rw [if_pos hany]
    rfl

theorem tryAnchor_some_shape {s o : Scanner} {ref : Point} {i : Nat} {r : Scanner}
    (h : tryAnchor s o ref i = some r) :
    r.beacons = (reposition s ref i).getD (argmaxN (anchorCounts s o ref i)) [] ∧
    r.position = subP ref
      ((s.orientations.getD (argmaxN (anchorCounts s o ref i)) []).getD i origin) ∧
    (anchorCounts s o ref i).any (fun c => decide (MIN_BEACONS_IN_COMMON ≤ c)) = true := by
  simp only [tryAnchor] at h
  split_ifs at h with h1 h2
  have heq := Option.some.inj h
  subst heq
  exact ⟨rfl, rfl, h2⟩

theorem anchorLoop_some {s o : Scanner} {ref : Point} : ∀ {l : List Nat} {r : Scanner},
    anchorLoop s o ref l = some r → ∃ i ∈ l, tryAnchor s o ref i = some r
  | [], r, h => by simp [anchorLoop] at h
  | i :: rest, r, h => by
    simp only [anchorLoop] at h
    cases hta : tryAnchor s o ref i with
    | some r' =>
      rw [hta] at h
      have heq := Option.some.inj h
      subst heq
      exact ⟨i, List.mem_cons_self _ _, hta⟩
    | none =>
      rw [hta] at h
      rcases anchorLoop_some h with ⟨i', hi', h'⟩
      exact ⟨i', List.mem_cons_of_mem _ hi', h'⟩

theorem matchScanner_some_decomp {s o r : Scanner} (h : matchScanner s o = some r) :
    ∃ d i, (sharedKeys s o).head? = some d ∧
      i ∈ dlookup s.distances d ∧
      tryAnchor s o (pointAt o.beacons ((dlookup o.distances d).headD 0)) i = some r := by
  simp only [matchScanner] at h
  split_ifs at h with hpre
  cases hd : (sharedKeys s o).head? with
  | none =>
    rw [hd] at h
    simp at h
  | some d =>
    rw [hd] at h
    rcases anchorLoop_some h with ⟨i, hi, hta⟩
    exact ⟨d, i, rfl, hi, hta⟩

/-- C1: when the matcher accepts, the returned cloud is the candidate's
points under the orientation attaining the maximum intersection count,
each translated by `offset = R - orientedC[anchor]`, its resolved position
is that same offset, and (for a duplicate-free fixed cloud) an anchor
attempt is accepted exactly when the maximum intersection count over the
orientations is at least 12. -/
theorem c1_matcher_selection (s o r : Scanner) (hnd : o.beacons.Nodup)
    (h : matchScanner s o = some r) :
    (∃ d ref i,
      (sharedKeys s o).head? = some d ∧
      ref = pointAt o.beacons ((dlookup o.distances d).headD 0) ∧
      i ∈ dlookup s.distances d ∧
      tryAnchor s o ref i = some r ∧
      MIN_BEACONS_IN_COMMON ≤ listMaxN (anchorCounts s o ref i) ∧
      (anchorCounts s o ref i).getD (argmaxN (anchorCounts s o ref i)) 0 =
        listMaxN (anchorCounts s o ref i) ∧
      r.beacons = (reposition s ref i).getD (argmaxN (anchorCounts s o ref i)) [] ∧
      r.position = subP ref
        ((s.orientations.getD (argmaxN (anchorCounts s o ref i)) []).getD i origin)) ∧
    (∀ ref i, (tryAnchor s o ref i).isSome = true ↔
      MIN_BEACONS_IN_COMMON ≤ listMaxN (anchorCounts s o ref i)) := by
  refine ⟨?_, fun ref i => tryAnchor_isSome_iff s o hnd ref i⟩
  rcases matchScanner_some_decomp h with ⟨d, i, hd, hi, hta⟩
  obtain ⟨hb, hp, hany⟩ := tryAnchor_some_shape hta
  refine ⟨d, _, i, hd, rfl, hi, hta, ?_, getD_argmaxN _, hb, hp⟩
  exact (tryAnchor_isSome_iff s o hnd _ i).mp (by rw [hta]; rfl)

/-- C9: a successful match always returns a freshly constructed scanner
whose beacons are the candidate's original beacons transformed by an
orientation-table rotation and a translation, with the position set to
that translation; the inputs, being immutable values in the embedding, are
untouched. -/
theorem c9_fresh_cloud (s o r : Scanner) (h : matchScanner s o = some r) :
    ∃ M t, M ∈ ROTATIONS ∧
      r.beacons = s.beacons.map (fun p => addP (applyRot M p) t) ∧ r.position = t := by
  rcases matchScanner_some_decomp h with ⟨d, i, hd, hi, hta⟩
  obtain ⟨hb, hp, hany⟩ := tryAnchor_some_shape hta
  set ref := pointAt o.beacons ((dlookup o.distances d).headD 0) with href
  set k := argmaxN (anchorCounts s o ref i) with hk
  have hcne : anchorCounts s o ref i ≠ [] := by
    intro hnil
    rw [hnil] at hany
    simp at hany
  have hklt : k < (anchorCounts s o ref i).length := argmaxN_lt hcne
  have hlen : (anchorCounts s o ref i).length = ROTATIONS.length := anchorCounts_length s o ref i
  rw [hlen] at hklt
  refine ⟨ROTATIONS.get ⟨k, hklt⟩,
    subP ref ((s.beacons.map fun p => applyRot (ROTATIONS.get ⟨k, hklt⟩) p).getD i origin),
    List.get_mem _ _ _, ?_, ?_⟩
  · rw [hb]
    have h1 : (reposition s ref i).getD k [] =
        ((s.beacons.map fun p => applyRot (ROTATIONS.get ⟨k, hklt⟩) p).map fun p =>
          addP p (subP ref
            ((s.beacons.map fun p => applyRot (ROTATIONS.get ⟨k, hklt⟩) p).getD i origin))) := by
      unfold reposition Scanner.orientations
      rw [List.map_map]
      rw [getD_map_of_lt _ ROTATIONS [] hklt]
      rfl
    rw [h1, List.map_map]
    rfl
  · rw [hp]
    have h2 : s.orientations.getD k [] =
        s.beacons.map fun p => applyRot (ROTATIONS.get ⟨k, hklt⟩) p := by
      unfold Scanner.orientations
      rw [getD_map_of_lt _ ROTATIONS [] hklt]
    rw [h2]

set_option maxHeartbeats 4000000 in
/-- Concrete run of the matcher: the generic 12-point cloud matched against
itself is accepted with the identity orientation and zero offset. -/
theorem matchA : matchScanner cloudA cloudA = some ⟨c12, origin⟩ := by decide

/-- C6 counterexample: twelve collinear evenly spaced points shared in
full between the two clouds (12 common points realizing all 66 shared
pairs) are rejected by the matcher: the repeated pair distances collapse
the index sets, so the pre-filter sum is 51 < 66 and the matcher returns
`none`. -/
theorem c6_counterexample :
    (coll12.beacons.filter fun p => coll12.beacons.contains p).length = 12 ∧
    (allPairs coll12.beacons.length).length = 66 ∧
    prefilterSum coll12 coll12 < MIN_COMMON_DISTANCES ∧
    matchScanner coll12 coll12 = none := by decide

/-- C6 amended: at the boundary, a pair of clouds with exactly 12 points
in common whose 66 shared-pair distances are pairwise distinct is accepted
as a match, and a pair with only 11 points in common is rejected; 12
common points are not sufficient in general, since repeated distance
values can defeat the pre-filter. -/
theorem c6_boundary :
    ((cloudA.beacons.filter fun p => cloudA.beacons.contains p).length = 12 ∧
      ((distPairs cloudA.beacons).map Prod.fst).Nodup ∧
      (distPairs cloudA.beacons).length = 66 ∧
      (matchScanner cloudA cloudA).isSome = true) ∧
    ((c11F.beacons.filter fun p => c11C.beacons.contains p).length = 11 ∧
      matchScanner c11C c11F = none) := by
  refine ⟨⟨by decide, by decide, by decide, ?_⟩, by decide, by decide⟩
  rw [matchA]
  rfl

/-- Witness for C1: the matcher accepting the generic 12-point cloud
against itself. -/
theorem c1_matcher_selection_witness :
    (∃ d ref i,
      (sharedKeys cloudA cloudA).head? = some d ∧
      ref = pointAt cloudA.beacons ((dlookup cloudA.distances d).headD 0) ∧
      i ∈ dlookup cloudA.distances d ∧
      tryAnchor cloudA cloudA ref i = some ⟨c12, origin⟩ ∧
      MIN_BEACONS_IN_COMMON ≤ listMaxN (anchorCounts cloudA cloudA ref i) ∧
      (anchorCounts cloudA cloudA ref i).getD (argmaxN (anchorCounts cloudA cloudA ref i)) 0 =
        listMaxN (anchorCounts cloudA cloudA ref i) ∧
      (Scanner.mk c12 origin).beacons =
        (reposition cloudA ref i).getD (argmaxN (anchorCounts cloudA cloudA ref i)) [] ∧
      (Scanner.mk c12 origin).position = subP ref
        ((cloudA.orientations.getD (argmaxN (anchorCounts cloudA cloudA ref i)) []).getD i
          origin)) ∧
    (∀ ref i, (tryAnchor cloudA cloudA ref i).isSome = true ↔
      MIN_BEACONS_IN_COMMON ≤ listMaxN (anchorCounts cloudA cloudA ref i)) :=
  c1_matcher_selection cloudA cloudA ⟨c12, origin⟩ (by decide) matchA

/-- Witness for C9: the accepted self-match of the generic 12-point cloud
is a fresh rotation-plus-translation image of the candidate's beacons. -/
theorem c9_fresh_cloud_witness :
    ∃ M t, M ∈ ROTATIONS ∧
      (Scanner.mk c12 origin).beacons = cloudA.beacons.map (fun p => addP (applyRot M p) t) ∧
      (Scanner.mk c12 origin).position = t :=
  c9_fresh_cloud cloudA cloudA ⟨c12, origin⟩ matchA
